import Mathlib

/-!
Verification of the thumbnail layout engine of the Edit Breakdown add-on
(`src/__init__.py`).  The Python source works on floating-point numbers; the
embedding models all arithmetic exactly over `ℚ` (with `Int.floor`/`Int.ceil`
for the calls to `math.floor`/`math.ceil`).  The single call to `math.sqrt`
(line 326) is modelled by an explicit parameter `scale_factor` together with
the defining hypothesis `scale_factor * scale_factor = thumbnail_area / (orig_w * orig_h)`
and `0 ≤ scale_factor` carried by the theorems.  A Python `ZeroDivisionError`
(reachable at line 332 when `num_images_per_row == 0`) is modelled by an
`Option` result, `none` standing for the propagated exception.
-/

/-- Region types of interest to `fit_thumbnails_in_region` (line 294-301).
`WINDOW` stands for any region type other than the three tested ones. -/
inductive RegionType where
  | HEADER
  | UI
  | TOOLS
  | WINDOW
deriving DecidableEq

/-- A host (Blender) region: a type tag plus pixel width and height. -/
structure BlenderRegion where
  rtype : RegionType
  width : ℚ
  height : ℚ

/-- Result of the Region Sizing step (lines 284-301): usable width and height
and the left offset `start_w`. -/
structure RegionFit where
  total_available_w : ℚ
  total_available_h : ℚ
  start_w : ℚ
deriving DecidableEq

/-- One iteration of the loop over `area.regions` (lines 294-301): subtract a
header region height, a UI panel width, and a tools panel width (the latter
also sets `start_w`), each only when the dimension exceeds 1 px. -/
def region_overlap_step (acc : RegionFit) (r : BlenderRegion) : RegionFit :=
  let acc1 := if r.rtype = RegionType.HEADER ∧ 1 < r.height then
      { acc with total_available_h := acc.total_available_h - r.height } else acc
  let acc2 := if r.rtype = RegionType.UI ∧ 1 < r.width then
      { acc1 with total_available_w := acc1.total_available_w - r.width } else acc1
  if r.rtype = RegionType.TOOLS ∧ 1 < r.width then
    { acc2 with total_available_w := acc2.total_available_w - r.width, start_w := r.width }
  else acc2

/-- Region Sizing (lines 284-301): start from the raw region size; when
`use_region_overlap` is set, discount every overlapping chrome region. -/
def compute_available_region (region_w region_h : ℚ) (use_region_overlap : Bool)
    (regions : List BlenderRegion) : RegionFit :=
  if use_region_overlap then
    regions.foldl region_overlap_step ⟨region_w, region_h, 0⟩
  else
    ⟨region_w, region_h, 0⟩

/-- `min_margin = 40` (line 307). -/
def min_margin : ℤ := 40

/-- `total_spacing = (150, 150)` (line 306). -/
def total_spacing : ℚ × ℚ := (150, 150)

/-- The mutable layout state: the shared `thumbnail_size` global (line 225)
and the `pos` field of each loaded thumbnail (line 221), listed in the order
of `thumbnail_images`. -/
structure FitResult where
  thumbnail_size : ℚ × ℚ
  positions : List (ℚ × ℚ)
deriving DecidableEq

/-- `calculate_spacing` (lines 351-367): split the space not occupied by
thumbnails along one axis into a spacing between thumbnails (0 when the axis
holds at most one) and a margin at both ends.  Returns `(margin, spacing)`. -/
def calculate_spacing (total_available thumb_size : ℚ) (num_thumbs : ℤ) : ℤ × ℤ :=
  let available_space := total_available - thumb_size * (num_thumbs : ℚ)
  let spacing : ℤ :=
    if num_thumbs > 1 then
      min (Int.ceil ((available_space - (min_margin : ℚ)) / ((num_thumbs : ℚ) - 1))) min_margin
    else 0
  let margin : ℤ := Int.floor ((available_space - (spacing : ℚ) * ((num_thumbs : ℚ) - 1)) / 2)
  (margin, spacing)

/-- The clamp step (lines 340-343): if a full row at the current scale exceeds
`max_thumb_w`, recompute the scale from that bound; then the same for a full
column against `max_thumb_h`, sequentially. -/
def clamp_scale (scale_factor ow oh max_thumb_w max_thumb_h : ℚ) (cols rows : ℤ) : ℚ :=
  let s1 := if ow * scale_factor * (cols : ℚ) > max_thumb_w
    then max_thumb_w / (ow * (cols : ℚ)) else scale_factor
  if oh * s1 * (rows : ℚ) > max_thumb_h
    then max_thumb_h / (oh * (rows : ℚ)) else s1

/-- The quantities computed by lines 326-375 of `fit_thumbnails_in_region`:
final thumbnail size, grid dimensions, and per-axis margin and spacing. -/
structure LayoutParams where
  thumb_w : ℚ
  thumb_h : ℚ
  cols : ℤ
  rows : ℤ
  margin_x : ℤ
  spacing_x : ℤ
  margin_y : ℤ
  spacing_y : ℤ
deriving DecidableEq

/-- Lines 326-375 of `fit_thumbnails_in_region`: grid dimensions from the
area-based scale estimate, the clamp step, and the spacing computation.
`scale_factor` stands for `math.sqrt(thumbnail_area / (orig_w * orig_h))`
(line 326).  `none` models the `ZeroDivisionError` raised at line 332 when
`num_images_per_row` is zero. -/
def layout_params (num_images : ℕ) (total_available_w total_available_h : ℚ)
    (original_image_w original_image_h scale_factor : ℚ) : Option LayoutParams :=
  let available_w := total_available_w - total_spacing.1
  let max_thumb_w := total_available_w - (min_margin : ℚ)
  let max_thumb_h := total_available_h - (min_margin : ℚ)
  let thumb_w := original_image_w * scale_factor
  let num_images_per_row : ℤ := Int.ceil (available_w / thumb_w)
  if num_images_per_row = 0 then none
  else
    let num_images_per_col : ℤ := Int.ceil ((num_images : ℚ) / (num_images_per_row : ℚ))
    let s := clamp_scale scale_factor original_image_w original_image_h
      max_thumb_w max_thumb_h num_images_per_row num_images_per_col
    let tw := original_image_w * s
    let th := original_image_h * s
    let space_w := calculate_spacing total_available_w tw num_images_per_row
    let space_h := calculate_spacing total_available_h th num_images_per_col
    some ⟨tw, th, num_images_per_row, num_images_per_col,
      space_w.1, space_w.2, space_h.1, space_h.2⟩

/-- The position-assignment loop (lines 382-388): place images left to right,
advancing `x` by `thumb_w + spacing_x`; once `x` passes the start of the last
column, wrap to the start of the next row. -/
def assign_positions (row_start_x step_x step_y last_start_pos_x : ℚ) :
    ℕ → ℚ → ℚ → List (ℚ × ℚ)
  | 0, _, _ => []
  | n + 1, x, y =>
    let x2 := x + step_x
    if x2 > last_start_pos_x then
      (x, y) :: assign_positions row_start_x step_x step_y last_start_pos_x n
        row_start_x (y - step_y)
    else
      (x, y) :: assign_positions row_start_x step_x step_y last_start_pos_x n x2 y

/-- `fit_thumbnails_in_region` (lines 264-388), with the Region Sizing part
factored into `compute_available_region` and its results passed as arguments.
`prev` is the state left by the previous invocation (the `thumbnail_size`
global and the images' `pos` fields).  The early-out for zero images
(lines 276-278) returns the state unchanged; the early-out for a too-small
per-image area (lines 323-325) zeroes the size and keeps the positions.
`scale_factor` stands for the square root computed at line 326; `none` models
the `ZeroDivisionError` reachable at line 332. -/
def fit_thumbnails_in_region (prev : FitResult) (num_images : ℕ)
    (total_available_w total_available_h start_w : ℚ)
    (original_image_w original_image_h scale_factor : ℚ) : Option FitResult :=
  if num_images = 0 then some prev
  else
    let available_w := total_available_w - total_spacing.1
    let available_h := total_available_h - total_spacing.2
    let available_area := available_w * available_h
    let thumbnail_area := available_area / (num_images : ℚ)
    if thumbnail_area < 20 then some { thumbnail_size := (0, 0), positions := prev.positions }
    else
      match layout_params num_images total_available_w total_available_h
        original_image_w original_image_h scale_factor with
      | none => none
      | some p =>
        let start_pos_x := start_w + (p.margin_x : ℚ)
        let start_pos_y := total_available_h - p.thumb_h - (p.margin_y : ℚ)
        let last_start_pos_x := start_w +
          ((Int.ceil ((p.margin_x : ℚ) + ((p.cols : ℚ) - 1) * (p.thumb_w + (p.spacing_x : ℚ)))) : ℚ)
        some { thumbnail_size := (p.thumb_w, p.thumb_h),
               positions := assign_positions (start_w + (p.margin_x : ℚ))
                 (p.thumb_w + (p.spacing_x : ℚ)) (p.thumb_h + (p.spacing_y : ℚ))
                 last_start_pos_x num_images start_pos_x start_pos_y }

/-- A loaded thumbnail as far as `load_edit_thumbnails` (lines 228-261) is
concerned: its numeric name (parsed from the file name, line 248) and whether
`gl_load()` fails for it (line 257). -/
structure ThumbnailImage where
  name : ℕ
  gl_load_fails : Bool
deriving DecidableEq

/-- Insertion into a name-sorted list, for the `sort` call at line 254. -/
def insertByName (img : ThumbnailImage) : List ThumbnailImage → List ThumbnailImage
  | [] => [img]
  | y :: ys => if img.name ≤ y.name then img :: y :: ys else y :: insertByName img ys

/-- Sorting by the numeric name, modelling `thumbnail_images.sort(key=lambda x: x.name)`. -/
def sortByName : List ThumbnailImage → List ThumbnailImage
  | [] => []
  | x :: xs => insertByName x (sortByName xs)

/-- `load_edit_thumbnails` (lines 228-261).  `listing` models the result of
`os.listdir`: `none` when the directory does not exist (`FileNotFoundError`),
`some files` otherwise.  On the missing-directory path the function logs a
warning (second component `true`) and keeps the image list it started with.
It then sorts by name and runs `gl_load` on every image; a `gl_load` failure
raises (line 258), modelled by an overall `none`. -/
def load_edit_thumbnails (prev : List ThumbnailImage)
    (listing : Option (List ThumbnailImage)) :
    Option (List ThumbnailImage × Bool) :=
  let loaded : List ThumbnailImage × Bool :=
    match listing with
    | some files => (prev ++ files, false)
    | none => (prev, true)
  let sorted := sortByName loaded.1
  if sorted.any (fun img => img.gl_load_fails) then none
  else some (sorted, loaded.2)

/-- Spacing and margin distribution as literally worded in the spec
(section 4.2 step 6): `leftover = total_available - thumb_size * count`;
when more than one thumbnail occupies the axis,
`spacing = min(ceil((leftover - min_margin) / (count - 1)), min_margin)`,
otherwise `spacing = 0`; and
`margin = floor((leftover - spacing * (count - 1)) / 2)`. -/
def calculate_spacing_spec (total_available thumb_size : ℚ) (count_in_axis : ℤ) : ℤ × ℤ :=
  let leftover := total_available - thumb_size * (count_in_axis : ℚ)
  let spacing : ℤ :=
    if count_in_axis > 1 then
      min (Int.ceil ((leftover - (min_margin : ℚ)) / ((count_in_axis : ℚ) - 1))) min_margin
    else 0
  let margin : ℤ := Int.floor ((leftover - (spacing : ℚ) * ((count_in_axis : ℚ) - 1)) / 2)
  (margin, spacing)

/-- C3: `calculate_spacing` implements exactly the literal per-axis rule of the
spec (including subtracting `min_margin` once from the leftover), the computed
spacing never exceeds `min_margin` when the axis holds more than one thumbnail,
and the spacing is 0 otherwise. -/
theorem C3_spacing_formula (total_available thumb_size : ℚ) (num_thumbs : ℤ) :
    calculate_spacing total_available thumb_size num_thumbs =
      calculate_spacing_spec total_available thumb_size num_thumbs ∧
    (1 < num_thumbs →
      (calculate_spacing total_available thumb_size num_thumbs).2 ≤ min_margin) ∧
    (¬ 1 < num_thumbs →
      (calculate_spacing total_available thumb_size num_thumbs).2 = 0) := by
  refine ⟨rfl, ?_, ?_⟩
  · intro h
    simp only [calculate_spacing]
    rw [if_pos h]
    exact min_le_right _ _
  · intro h
    simp only [calculate_spacing]
    rw [if_neg h]

theorem C3_witness :
    calculate_spacing 1150 100 10 = calculate_spacing_spec 1150 100 10 ∧
    (calculate_spacing 1150 100 10).2 ≤ min_margin ∧
    (calculate_spacing 350 200 1).2 = 0 :=
  ⟨(C3_spacing_formula 1150 100 10).1,
   (C3_spacing_formula 1150 100 10).2.1 (by norm_num),
   (C3_spacing_formula 350 200 1).2.2 (by norm_num)⟩

/-- C2: the clamp step takes, of the area-based scale and the two per-axis
bounds `max_thumb_w / (orig_w * cols)` and `max_thumb_h / (orig_h * rows)`,
the smallest; consequently the final thumbnail width times the column count
fits `max_thumb_w`, the final height times the row count fits `max_thumb_h`,
and the final scale never exceeds the area-based estimate. -/
theorem C2_clamp_scale_spec (s ow oh mw mh : ℚ) (cols rows : ℤ)
    (how : 0 < ow) (hoh : 0 < oh) (hc : 0 < cols) (hr : 0 < rows) :
    clamp_scale s ow oh mw mh cols rows =
      min s (min (mw / (ow * (cols : ℚ))) (mh / (oh * (rows : ℚ)))) ∧
    ow * clamp_scale s ow oh mw mh cols rows * (cols : ℚ) ≤ mw ∧
    oh * clamp_scale s ow oh mw mh cols rows * (rows : ℚ) ≤ mh ∧
    clamp_scale s ow oh mw mh cols rows ≤ s := by
  have hcq : (0 : ℚ) < (cols : ℚ) := by exact_mod_cast hc
  have hrq : (0 : ℚ) < (rows : ℚ) := by exact_mod_cast hr
  have hwc : (0 : ℚ) < ow * (cols : ℚ) := mul_pos how hcq
  have hhr : (0 : ℚ) < oh * (rows : ℚ) := mul_pos hoh hrq
  have h1 : ∀ x : ℚ, (mw < ow * x * (cols : ℚ)) ↔ mw / (ow * (cols : ℚ)) < x := by
    intro x
    rw [show ow * x * (cols : ℚ) = x * (ow * (cols : ℚ)) by ring, div_lt_iff₀ hwc]
  have h2 : ∀ x : ℚ, (mh < oh * x * (rows : ℚ)) ↔ mh / (oh * (rows : ℚ)) < x := by
    intro x
    rw [show oh * x * (rows : ℚ) = x * (oh * (rows : ℚ)) by ring, div_lt_iff₀ hhr]
  have key : clamp_scale s ow oh mw mh cols rows =
      min s (min (mw / (ow * (cols : ℚ))) (mh / (oh * (rows : ℚ)))) := by
    simp only [clamp_scale, gt_iff_lt]
    by_cases hA : mw < ow * s * (cols : ℚ)
    · rw [if_pos hA]
      have hcwlt : mw / (ow * (cols : ℚ)) < s := (h1 s).mp hA
      by_cases hB : mh < oh * (mw / (ow * (cols : ℚ))) * (rows : ℚ)
      · rw [if_pos hB]
        have hchlt : mh / (oh * (rows : ℚ)) < mw / (ow * (cols : ℚ)) := (h2 _).mp hB
        rw [min_eq_right (le_of_lt hchlt), min_eq_right (le_of_lt (lt_trans hchlt hcwlt))]
      · rw [if_neg hB]
        have hle : mw / (ow * (cols : ℚ)) ≤ mh / (oh * (rows : ℚ)) :=
          le_of_not_lt (fun hlt => hB ((h2 _).mpr hlt))
        rw [min_eq_left hle, min_eq_right (le_of_lt hcwlt)]
    · rw [if_neg hA]
      have hsle : s ≤ mw / (ow * (cols : ℚ)) := le_of_not_lt (fun hlt => hA ((h1 s).mpr hlt))
      by_cases hB : mh < oh * s * (rows : ℚ)
      · rw [if_pos hB]
        have hchs : mh / (oh * (rows : ℚ)) < s := (h2 s).mp hB
        rw [min_eq_right (le_of_lt (lt_of_lt_of_le hchs hsle)), min_eq_right (le_of_lt hchs)]
      · rw [if_neg hB]
        have hsch : s ≤ mh / (oh * (rows : ℚ)) := le_of_not_lt (fun hlt => hB ((h2 s).mpr hlt))
        rw [min_eq_left (le_min hsle hsch)]
  refine ⟨key, ?_, ?_, ?_⟩
  · have hle : clamp_scale s ow oh mw mh cols rows ≤ mw / (ow * (cols : ℚ)) := by
      rw [key]
      exact le_trans (min_le_right _ _) (min_le_left _ _)
    have h3 : clamp_scale s ow oh mw mh cols rows * (ow * (cols : ℚ)) ≤ mw :=
      (le_div_iff₀ hwc).mp hle
    linarith [h3, show ow * clamp_scale s ow oh mw mh cols rows * (cols : ℚ) =
      clamp_scale s ow oh mw mh cols rows * (ow * (cols : ℚ)) from by ring]
  · have hle : clamp_scale s ow oh mw mh cols rows ≤ mh / (oh * (rows : ℚ)) := by
      rw [key]
      exact le_trans (min_le_right _ _) (min_le_right _ _)
    have h3 : clamp_scale s ow oh mw mh cols rows * (oh * (rows : ℚ)) ≤ mh :=
      (le_div_iff₀ hhr).mp hle
    linarith [h3, show oh * clamp_scale s ow oh mw mh cols rows * (rows : ℚ) =
      clamp_scale s ow oh mw mh cols rows * (oh * (rows : ℚ)) from by ring]
  · rw [key]
    exact min_le_left _ _

theorem C2_witness :
    clamp_scale 1 1 1 10 10 1 1 ≤ 1 ∧
    (1 : ℚ) * clamp_scale 1 1 1 10 10 1 1 * ((1 : ℤ) : ℚ) ≤ 10 :=
  ⟨(C2_clamp_scale_spec 1 1 1 10 10 1 1 (by norm_num) (by norm_num)
      (by norm_num) (by norm_num)).2.2.2,
   (C2_clamp_scale_spec 1 1 1 10 10 1 1 (by norm_num) (by norm_num)
      (by norm_num) (by norm_num)).2.1⟩

/-- C5: when the per-image target area `(available_w * available_h) / image_count`
falls below the 20 px² visibility threshold, the packer sets the shared
thumbnail size to `(0, 0)` and returns, leaving the positions untouched. -/
theorem C5_small_area_early_out (prev : FitResult) (num_images : ℕ)
    (taw tah sw ow oh s : ℚ) (hn : num_images ≠ 0)
    (h : (taw - 150) * (tah - 150) / (num_images : ℚ) < 20) :
    fit_thumbnails_in_region prev num_images taw tah sw ow oh s =
      some { thumbnail_size := (0, 0), positions := prev.positions } := by
  simp only [fit_thumbnails_in_region, total_spacing]
  rw [if_neg hn, if_pos h]

theorem C5_witness :
    fit_thumbnails_in_region ⟨(1, 2), [(3, 4)]⟩ 100 160 160 0 100 100 1 =
      some { thumbnail_size := (0, 0), positions := [(3, 4)] } :=
  C5_small_area_early_out ⟨(1, 2), [(3, 4)]⟩ 100 160 160 0 100 100 1 (by norm_num)
    (by norm_num)

/-- C8: with zero images the packer early-outs: it returns at once, the state
is untouched, and with no images there are no assigned positions. -/
theorem C8_zero_images (prev : FitResult) (taw tah sw ow oh s : ℚ)
    (h : prev.positions = []) :
    fit_thumbnails_in_region prev 0 taw tah sw ow oh s =
      some { thumbnail_size := prev.thumbnail_size, positions := [] } := by
  rw [← h]
  simp [fit_thumbnails_in_region]

theorem C8_witness :
    fit_thumbnails_in_region ⟨(5, 6), []⟩ 0 1 2 3 4 5 6 = some ⟨(5, 6), []⟩ :=
  C8_zero_images ⟨(5, 6), []⟩ 1 2 3 4 5 6 rfl

/-- C10: on the zero-image early-out the packer changes nothing (the shared
size keeps the previous invocation value and the positions stay); on the
below-threshold early-out it zeroes the shared size but touches no position. -/
theorem C10_early_out_frame (prev : FitResult) (num_images : ℕ)
    (taw tah sw ow oh s : ℚ) :
    fit_thumbnails_in_region prev 0 taw tah sw ow oh s = some prev ∧
    (num_images ≠ 0 → (taw - 150) * (tah - 150) / (num_images : ℚ) < 20 →
      fit_thumbnails_in_region prev num_images taw tah sw ow oh s =
        some { thumbnail_size := (0, 0), positions := prev.positions }) := by
  constructor
  · simp [fit_thumbnails_in_region]
  · intro hn h
    simp only [fit_thumbnails_in_region, total_spacing]
    rw [if_neg hn, if_pos h]

theorem C10_witness :
    fit_thumbnails_in_region ⟨(7, 8), [(1, 1)]⟩ 0 500 500 0 100 100 1 =
      some ⟨(7, 8), [(1, 1)]⟩ ∧
    fit_thumbnails_in_region ⟨(7, 8), [(1, 1)]⟩ 100 160 160 0 100 100 1 =
      some { thumbnail_size := (0, 0), positions := [(1, 1)] } :=
  ⟨(C10_early_out_frame ⟨(7, 8), [(1, 1)]⟩ 100 500 500 0 100 100 1).1,
   (C10_early_out_frame ⟨(7, 8), [(1, 1)]⟩ 100 160 160 0 100 100 1).2
     (by norm_num) (by norm_num)⟩

/-- C9: when the thumbnail directory does not exist (`os.listdir` raises
`FileNotFoundError`), `load_edit_thumbnails` recovers locally: it reports a
warning (second component `true`), proceeds with an empty image list, and no
exception propagates (the result is `some`, not `none`). -/
theorem C9_missing_directory :
    load_edit_thumbnails [] none = some ([], true) := rfl

/-- On an axis holding a single thumbnail, `calculate_spacing` yields spacing 0
and a margin of half the leftover, rounded down. -/
theorem calculate_spacing_one (total_available thumb_size : ℚ) :
    calculate_spacing total_available thumb_size 1 =
      (Int.floor ((total_available - thumb_size) / 2), 0) := by
  simp only [calculate_spacing]
  norm_num

/-- C1: the claim fails on the code.  At positive usable size 100×100 with one
100×25 image (the scale factor 1 is the exact square root of the per-image
area over the original image area), `available_w` is negative, the early-out
does not trigger (the per-image area is 2500 ≥ 20), `num_images_per_row`
computes to `ceil(-50/100) = 0`, and the packer raises `ZeroDivisionError` at
line 332 (modelled by `none`) instead of terminating with one assigned
position. -/
theorem C1_grid_packer_crash :
    fit_thumbnails_in_region ⟨(0, 0), [(0, 0)]⟩ 1 100 100 0 100 25 1 = none ∧
    (1 : ℚ) * 1 = (((100 : ℚ) - 150) * ((100 : ℚ) - 150) / 1) / (100 * 25) ∧
    (0 : ℚ) < 100 := by
  refine ⟨?_, by norm_num, by norm_num⟩
  have hc : Int.ceil ((-1 : ℚ) / 2) = 0 := by
    rw [Int.ceil_eq_iff]
    norm_num
  have hc2 : Int.ceil (-((1 : ℚ) / 2)) = 0 := by
    rw [Int.ceil_eq_iff]
    norm_num
  norm_num [fit_thumbnails_in_region, layout_params, total_spacing, min_margin, hc, hc2]

/-- C4: counterexample to the claim as stated.  With exactly one 100×100 image
in a 1150×160 usable region (scale factor 1, the exact square root of the
per-image area over the original area), the packer computes 10 images per row
and the x-axis spacing is 13, not 0; the margins 16 (x) and 30 (y) are not
equal on both sides of the x axis either (16 vs 1034). -/
theorem C4_counterexample :
    layout_params 1 1150 160 100 100 1 = some ⟨100, 100, 10, 1, 16, 13, 30, 0⟩ ∧
    ¬ (13 : ℤ) = 0 ∧
    (1 : ℚ) * 1 = (((1150 : ℚ) - 150) * ((160 : ℚ) - 150) / 1) / (100 * 100) := by
  refine ⟨?_, by norm_num, by norm_num⟩
  have hc2 : Int.ceil ((1 : ℚ) / 10) = 1 := by
    rw [Int.ceil_eq_iff]
    norm_num
  have hc3 : Int.ceil ((110 : ℚ) / 9) = 13 := by
    rw [Int.ceil_eq_iff]
    norm_num
  have hf1 : Int.floor ((33 : ℚ) / 2) = 16 := by
    rw [Int.floor_eq_iff]
    norm_num
  norm_num [layout_params, total_spacing, min_margin, clamp_scale, calculate_spacing,
    hc2, hc3, hf1]

/-- C4 (amended): with `image_count == 1` the grid always has exactly one row,
so the y-axis spacing is 0 (the division by `count - 1` is structurally
avoided) and the thumbnail is vertically centered by a margin of half the
vertical leftover (rounded down); the x-axis spacing is 0 and the thumbnail
horizontally centered likewise only when the computed `num_images_per_row`
is 1. -/
theorem C4_single_image_amended (taw tah ow oh s : ℚ) (p : LayoutParams)
    (hA : 0 < taw - 150) (hws : 0 < ow * s)
    (hp : layout_params 1 taw tah ow oh s = some p) :
    p.rows = 1 ∧ p.spacing_y = 0 ∧
    p.margin_y = Int.floor ((tah - p.thumb_h) / 2) ∧
    (p.cols = 1 → p.spacing_x = 0 ∧ p.margin_x = Int.floor ((taw - p.thumb_w) / 2)) := by
  have hcol : 0 < Int.ceil ((taw - 150) / (ow * s)) :=
    Int.ceil_pos.mpr (div_pos hA hws)
  have hcolQ : (0 : ℚ) < ((Int.ceil ((taw - 150) / (ow * s)) : ℤ) : ℚ) := by
    exact_mod_cast hcol
  have honeQ : (1 : ℚ) ≤ ((Int.ceil ((taw - 150) / (ow * s)) : ℤ) : ℚ) := by
    exact_mod_cast hcol
  have hrows : Int.ceil (((1 : ℕ) : ℚ) / ((Int.ceil ((taw - 150) / (ow * s)) : ℤ) : ℚ)) = 1 := by
    have h0 : (0 : ℚ) < 1 / ((Int.ceil ((taw - 150) / (ow * s)) : ℤ) : ℚ) :=
      div_pos one_pos hcolQ
    rw [Int.ceil_eq_iff]
    constructor
    · push_cast
      linarith
    · push_cast
      rw [div_le_one hcolQ]
      exact honeQ
  simp only [layout_params, total_spacing] at hp
  rw [if_neg (by exact_mod_cast ne_of_gt hcol)] at hp
  rw [Option.some_inj] at hp
  subst hp
  simp only [hrows, calculate_spacing_one]
  refine ⟨trivial, trivial, trivial, fun hc1 => ?_⟩
  rw [hc1, calculate_spacing_one]
  exact ⟨rfl, rfl⟩

theorem C4_witness :
    (⟨200, 200, 1, 1, 75, 0, 75, 0⟩ : LayoutParams).rows = 1 ∧
    (⟨200, 200, 1, 1, 75, 0, 75, 0⟩ : LayoutParams).spacing_y = 0 ∧
    (⟨200, 200, 1, 1, 75, 0, 75, 0⟩ : LayoutParams).margin_y =
      Int.floor (((350 : ℚ) - 200) / 2) ∧
    ((⟨200, 200, 1, 1, 75, 0, 75, 0⟩ : LayoutParams).cols = 1 →
      (⟨200, 200, 1, 1, 75, 0, 75, 0⟩ : LayoutParams).spacing_x = 0 ∧
      (⟨200, 200, 1, 1, 75, 0, 75, 0⟩ : LayoutParams).margin_x =
        Int.floor (((350 : ℚ) - 200) / 2)) := by
  have heval : layout_params 1 350 350 100 100 2 =
      some ⟨200, 200, 1, 1, 75, 0, 75, 0⟩ := by
    norm_num [layout_params, total_spacing, min_margin, clamp_scale, calculate_spacing]
  exact C4_single_image_amended 350 350 100 100 2 ⟨200, 200, 1, 1, 75, 0, 75, 0⟩
    (by norm_num) (by norm_num) heval

/-- C6: counterexample to the claim as stated.  Both inputs are one-row
layouts of two 100×100 images at usable height 550, the scale factors are the
exact square roots of the respective per-image areas over the original image
area, and yet growing the usable width from 950 to 1032 makes the final
thumbnail width drop from 400 to 992/3 ≈ 330.67 (the column count jumps from
2 to 3 and the clamp step fires). -/
theorem C6_counterexample :
    (4 : ℚ) * 4 = (((950 : ℚ) - 150) * ((550 : ℚ) - 150) / 2) / (100 * 100) ∧
    ((21 : ℚ) / 5) * ((21 : ℚ) / 5) =
      (((1032 : ℚ) - 150) * ((550 : ℚ) - 150) / 2) / (100 * 100) ∧
    (950 : ℚ) < 1032 ∧
    (layout_params 2 950 550 100 100 4).map LayoutParams.rows = some 1 ∧
    (layout_params 2 1032 550 100 100 (21 / 5)).map LayoutParams.rows = some 1 ∧
    (layout_params 2 950 550 100 100 4).map LayoutParams.thumb_w = some 400 ∧
    (layout_params 2 1032 550 100 100 (21 / 5)).map LayoutParams.thumb_w =
      some (992 / 3) ∧
    (992 : ℚ) / 3 < 400 := by
  have hmin1 : min (110 : ℤ) 40 = 40 := by decide
  have heval1 : layout_params 2 950 550 100 100 4 =
      some ⟨400, 400, 2, 1, 55, 40, 75, 0⟩ := by
    norm_num [layout_params, total_spacing, min_margin, clamp_scale, calculate_spacing,
      hmin1]
  have hc1 : Int.ceil ((21 : ℚ) / 10) = 3 := by
    rw [Int.ceil_eq_iff]
    norm_num
  have hc2 : Int.ceil ((2 : ℚ) / 3) = 1 := by
    rw [Int.ceil_eq_iff]
    norm_num
  have hf1 : Int.floor ((329 : ℚ) / 3) = 109 := by
    rw [Int.floor_eq_iff]
    norm_num
  have heval2 : layout_params 2 1032 550 100 100 (21 / 5) =
      some ⟨992 / 3, 992 / 3, 3, 1, 20, 0, 109, 0⟩ := by
    norm_num [layout_params, total_spacing, min_margin, clamp_scale, calculate_spacing,
      hc1, hc2, hf1]
  refine ⟨by norm_num, by norm_num, by norm_num, ?_, ?_, ?_, ?_, by norm_num⟩
  · rw [heval1]
    rfl
  · rw [heval2]
    rfl
  · rw [heval1]
    rfl
  · rw [heval2]
    rfl

/-- C6 (amended): for the one-row case, increasing `usable_w` with all other
inputs fixed never shrinks `thumb_w`, provided the clamp step leaves the
area-based scale untouched at both widths (the hypotheses
`p.thumb_w = orig_w * s` state exactly that).  The stated claim fails when
the clamp fires, see the counterexample. -/
theorem C6_monotonicity_amended (num : ℕ) (w1 w2 tah ow oh s1 s2 : ℚ)
    (p1 p2 : LayoutParams)
    (hw : w1 ≤ w2) (hs1 : 0 ≤ s1) (hs2 : 0 ≤ s2)
    (hden : 0 < ((num : ℚ) * ow * oh)) (how : 0 < ow) (hH : 150 ≤ tah)
    (hsq1 : s1 * s1 = (w1 - 150) * (tah - 150) / ((num : ℚ) * ow * oh))
    (hsq2 : s2 * s2 = (w2 - 150) * (tah - 150) / ((num : ℚ) * ow * oh))
    (hp1 : layout_params num w1 tah ow oh s1 = some p1)
    (hp2 : layout_params num w2 tah ow oh s2 = some p2)
    (hrow1 : p1.rows = 1) (hrow2 : p2.rows = 1)
    (hnc1 : p1.thumb_w = ow * s1) (hnc2 : p2.thumb_w = ow * s2) :
    p1.thumb_w ≤ p2.thumb_w := by
  have hnum : (w1 - 150) * (tah - 150) ≤ (w2 - 150) * (tah - 150) :=
    mul_le_mul_of_nonneg_right (by linarith) (by linarith)
  have hsq : s1 * s1 ≤ s2 * s2 := by
    rw [hsq1, hsq2]
    exact (div_le_div_right hden).mpr hnum
  have hle : s1 ≤ s2 := by
    by_contra hlt
    push_neg at hlt
    have := mul_self_lt_mul_self hs2 hlt
    linarith
  rw [hnc1, hnc2]
  exact mul_le_mul_of_nonneg_left hle (le_of_lt how)

theorem C6_witness :
    (⟨200, 200, 2, 1, 55, 40, 75, 0⟩ : LayoutParams).thumb_w ≤
      (⟨300, 300, 3, 1, 35, 40, 25, 0⟩ : LayoutParams).thumb_w := by
  have hmin1 : min (110 : ℤ) 40 = 40 := by decide
  have hmin2 : min (55 : ℤ) 40 = 40 := by decide
  have hc2 : Int.ceil ((2 : ℚ) / 3) = 1 := by
    rw [Int.ceil_eq_iff]
    norm_num
  have heval1 : layout_params 2 550 350 100 100 2 =
      some ⟨200, 200, 2, 1, 55, 40, 75, 0⟩ := by
    norm_num [layout_params, total_spacing, min_margin, clamp_scale, calculate_spacing,
      hmin1]
  have heval2 : layout_params 2 1050 350 100 100 3 =
      some ⟨300, 300, 3, 1, 35, 40, 25, 0⟩ := by
    norm_num [layout_params, total_spacing, min_margin, clamp_scale, calculate_spacing,
      hmin1, hmin2, hc2]
  exact C6_monotonicity_amended 2 550 1050 350 100 100 2 3
    ⟨200, 200, 2, 1, 55, 40, 75, 0⟩ ⟨300, 300, 3, 1, 35, 40, 25, 0⟩
    (by norm_num) (by norm_num) (by norm_num) (by norm_num) (by norm_num) (by norm_num)
    (by norm_num) (by norm_num) heval1 heval2 rfl rfl (by norm_num) (by norm_num)

/-- C7: Region Sizing.  With overlapping chrome, the usable height is the raw
height minus the header region height, the usable width is the raw width
minus the UI panel width and minus the tools panel width, and the offset is
the tools panel width — each region counted only when its dimension exceeds
1 px; without overlap, the usable size equals the raw size and the offset is
zero.  The computation is total, negative outputs included. -/
theorem region_overlap_step_header (acc : RegionFit) (wd ht : ℚ) :
    region_overlap_step acc ⟨RegionType.HEADER, wd, ht⟩ =
      ⟨acc.total_available_w, acc.total_available_h - (if 1 < ht then ht else 0),
       acc.start_w⟩ := by
  simp only [region_overlap_step]
  split_ifs <;> simp_all

theorem region_overlap_step_ui (acc : RegionFit) (wd ht : ℚ) :
    region_overlap_step acc ⟨RegionType.UI, wd, ht⟩ =
      ⟨acc.total_available_w - (if 1 < wd then wd else 0), acc.total_available_h,
       acc.start_w⟩ := by
  simp only [region_overlap_step]
  split_ifs <;> simp_all

theorem region_overlap_step_tools (acc : RegionFit) (wd ht : ℚ) :
    region_overlap_step acc ⟨RegionType.TOOLS, wd, ht⟩ =
      ⟨acc.total_available_w - (if 1 < wd then wd else 0), acc.total_available_h,
       if 1 < wd then wd else acc.start_w⟩ := by
  simp only [region_overlap_step]
  split_ifs <;> simp_all

theorem C7_region_sizing (w h : ℚ) (hdr ui tools : BlenderRegion)
    (hh : hdr.rtype = RegionType.HEADER) (hu : ui.rtype = RegionType.UI)
    (ht : tools.rtype = RegionType.TOOLS) :
    compute_available_region w h true [hdr, ui, tools] =
      ⟨w - (if 1 < ui.width then ui.width else 0) -
         (if 1 < tools.width then tools.width else 0),
       h - (if 1 < hdr.height then hdr.height else 0),
       if 1 < tools.width then tools.width else 0⟩ ∧
    (∀ regions : List BlenderRegion,
      compute_available_region w h false regions = ⟨w, h, 0⟩) := by
  constructor
  · obtain ⟨t1, w1, h1⟩ := hdr
    obtain ⟨t2, w2, h2⟩ := ui
    obtain ⟨t3, w3, h3⟩ := tools
    dsimp only at hh hu ht
    subst hh
    subst hu
    subst ht
    simp [compute_available_region, region_overlap_step_header,
      region_overlap_step_ui, region_overlap_step_tools]
  · intro regions
    simp [compute_available_region]

theorem C7_witness :
    compute_available_region 1000 600 true
      [⟨RegionType.HEADER, 0, 26⟩, ⟨RegionType.UI, 220, 600⟩,
       ⟨RegionType.TOOLS, 60, 600⟩] = ⟨720, 574, 60⟩ := by
  have h := (C7_region_sizing 1000 600 ⟨RegionType.HEADER, 0, 26⟩
    ⟨RegionType.UI, 220, 600⟩ ⟨RegionType.TOOLS, 60, 600⟩ rfl rfl rfl).1
  rw [h]
  norm_num
